import Mathlib

/-!
Shallow embedding of the `ublox-gps` crate, verified against its
natural-language specification.

Conventions used throughout this development:
* Rust byte buffers (`&[u8]`, `Vec<u8>`) are modelled as `List Nat`; where a
  theorem needs the u8 range it carries an explicit `< 256` hypothesis, and
  wrapping u8 arithmetic is written with explicit `% 256`.
* Rust `f64`/`f32` values are decoded bit-exactly from their little-endian
  bytes into `ℚ` (every finite IEEE double is a rational); floating-point
  *arithmetic* on already-decoded values (the TEC estimator and the
  `Uncertain` operators) is modelled over `ℝ`, i.e. in exact arithmetic.
* Fallible Rust code returns `Except`; a Rust `panic!`/`unreachable!` is a
  distinguished error constructor so that totality claims are statable.
-/

/-- Decidable equality for `Except`, used to evaluate the embedded decoders
at concrete inputs. -/
instance {ε α : Type} [DecidableEq ε] [DecidableEq α] : DecidableEq (Except ε α) :=
  fun a b =>
  match a, b with
  | .ok x, .ok y =>
    if h : x = y then .isTrue (by rw [h])
    else .isFalse (by intro hc; cases hc; exact h rfl)
  | .error x, .error y =>
    if h : x = y then .isTrue (by rw [h])
    else .isFalse (by intro hc; cases hc; exact h rfl)
  | .ok _, .error _ => .isFalse (by intro hc; cases hc)
  | .error _, .ok _ => .isFalse (by intro hc; cases hc)

/-- Stable insertion into a sorted list: the new element goes after every
existing element `b` with `le b a`.  Together with `stableSortBy` this
computes exactly the list Rust's stable `sort_by` produces (a stable sort's
output is uniquely determined by the comparator), while reducing
definitionally, which `List.mergeSort` does not. -/
def insertBy {α : Type} (le : α → α → Bool) (a : α) : List α → List α
  | [] => [a]
  | b :: bs => if le b a then b :: insertBy le a bs else a :: b :: bs

/-- Stable sort by a boolean comparator; see `insertBy`. -/
def stableSortBy {α : Type} (le : α → α → Bool) (l : List α) : List α :=
  l.foldl (fun acc x => insertBy le x acc) []

/-! ## GNSS taxonomy (src/src/nmea.rs, src/ublox-gps/src/ubx.rs) -/

/-- GnssSatellite from nmea.rs: a tagged variant over constellations, each
carrying a small integer identifier (u8 in the source, here `Nat`).
Constructor order matches the Rust declaration order, which fixes the
derived `Ord` used by the TEC sort. -/
inductive GnssSatellite where
  | gps (id : Nat)
  | sbas (id : Nat)
  | galileo (id : Nat)
  | beidou (id : Nat)
  | qzss (id : Nat)
  | glonass (id : Nat)
deriving DecidableEq, Repr

/-- Constructor index of a satellite, following Rust declaration order. -/
def GnssSatellite.ctorIdx : GnssSatellite → Nat
  | .gps _ => 0
  | .sbas _ => 1
  | .galileo _ => 2
  | .beidou _ => 3
  | .qzss _ => 4
  | .glonass _ => 5

/-- The identifier carried by a satellite value. -/
def GnssSatellite.prn : GnssSatellite → Nat
  | .gps i | .sbas i | .galileo i | .beidou i | .qzss i | .glonass i => i

/-- Boolean `<=` mirroring the derived `Ord` on the Rust enum:
variant order first, then the carried id. -/
def GnssSatellite.leB (a b : GnssSatellite) : Bool :=
  a.ctorIdx < b.ctorIdx || (a.ctorIdx == b.ctorIdx && a.prn ≤ b.prn)

/-- GnssSatellite::from_ubx. The catch-all arm in the source is
`unreachable!()`, i.e. a panic; that case is `none` here. -/
def GnssSatellite.fromUbx (cls svid : Nat) : Option GnssSatellite :=
  match cls with
  | 0 => some (.gps svid)
  | 1 => some (.sbas svid)
  | 2 => some (.galileo svid)
  | 3 => some (.beidou svid)
  | 5 => some (.qzss svid)
  | 6 => some (.glonass svid)
  | _ => none

/-- GPS frequency channels (ubx.rs `GpsFreq`). -/
inductive GpsFreq where
  | l1ca | l2cl | l2cm | l5
deriving DecidableEq, Repr

/-- Galileo frequency channels (ubx.rs `GalileoFreq`). -/
inductive GalileoFreq where
  | e1c | e1b | e5aI | e5aQ | e5bI | e5bQ
deriving DecidableEq, Repr

/-- Beidou frequency channels (ubx.rs `BeidouFreq`). -/
inductive BeidouFreq where
  | b1iD1 | b1iD2 | b2iD1 | b2iD2 | b2a
deriving DecidableEq, Repr

/-- Glonass frequency channels carrying the FDMA slot (ubx.rs `GlonassFreq`).
The slot is the i8 `freqId` byte, modelled as `Int`. -/
inductive GlonassFreq where
  | l1of (k : Int)
  | l2of (k : Int)
deriving DecidableEq, Repr

/-- QZSS frequency channels (ubx.rs `QzssFreq`). -/
inductive QzssFreq where
  | l1ca | l1s | l2cm | l2cl | l5
deriving DecidableEq, Repr

/-- A GNSS frequency channel (ubx.rs `GnssFreq`). -/
inductive GnssFreq where
  | gps (f : GpsFreq)
  | galileo (f : GalileoFreq)
  | beidou (f : BeidouFreq)
  | glonass (f : GlonassFreq)
  | qzss (f : QzssFreq)
deriving DecidableEq, Repr

/-- `Frequency::get_freq` for GPS channels, in Hz.  Every table entry of the
source is an integer number of Hz, hence exactly representable. -/
def GpsFreq.getFreq : GpsFreq → ℚ
  | .l1ca => 1575420000
  | .l2cl | .l2cm => 1227600000
  | .l5 => 1176450000

/-- `Frequency::get_freq` for Galileo channels, in Hz. -/
def GalileoFreq.getFreq : GalileoFreq → ℚ
  | .e1c | .e1b => 1575420000
  | .e5aI | .e5aQ => 1176450000
  | .e5bI | .e5bQ => 1207140000

/-- `Frequency::get_freq` for Beidou channels, in Hz. -/
def BeidouFreq.getFreq : BeidouFreq → ℚ
  | .b1iD1 | .b1iD2 => 1561098000
  | .b2iD1 | .b2iD2 => 1207140000
  | .b2a => 1176450000

/-- `Frequency::get_freq` for Glonass FDMA channels:
`L1OF = 1602.0 MHz + 562.5 kHz * k`, `L2OF = 1246.0 MHz + 437.5 kHz * k`.
All quantities are integers in Hz, so the f64 arithmetic of the source is
exact and the `ℚ` model is bit-faithful. -/
def GlonassFreq.getFreq : GlonassFreq → ℚ
  | .l1of k => 1602000000 + 562500 * (k : ℚ)
  | .l2of k => 1246000000 + 437500 * (k : ℚ)

/-- `Frequency::get_freq` for QZSS channels, in Hz. -/
def QzssFreq.getFreq : QzssFreq → ℚ
  | .l1ca | .l1s => 1575420000
  | .l2cm | .l2cl => 1227600000
  | .l5 => 1176450000

/-- `Frequency::get_freq` on the combined channel type. -/
def GnssFreq.getFreq : GnssFreq → ℚ
  | .gps f => f.getFreq
  | .galileo f => f.getFreq
  | .beidou f => f.getFreq
  | .glonass f => f.getFreq
  | .qzss f => f.getFreq

/-- `TryFrom<u8> for GpsFreq`. -/
def GpsFreq.tryFrom (v : Nat) : Option GpsFreq :=
  match v with
  | 0 => some .l1ca
  | 3 => some .l2cl
  | 4 => some .l2cm
  | 6 | 7 => some .l5
  | _ => none

/-- `TryFrom<u8> for GalileoFreq`. -/
def GalileoFreq.tryFrom (v : Nat) : Option GalileoFreq :=
  match v with
  | 0 => some .e1c
  | 1 => some .e1b
  | 3 => some .e5aI
  | 4 => some .e5aQ
  | 5 => some .e5bI
  | 6 => some .e5bQ
  | _ => none

/-- `TryFrom<u8> for BeidouFreq`. -/
def BeidouFreq.tryFrom (v : Nat) : Option BeidouFreq :=
  match v with
  | 0 => some .b1iD1
  | 1 => some .b1iD2
  | 2 => some .b2iD1
  | 3 => some .b2iD2
  | 7 => some .b2a
  | _ => none

/-- `TryFrom<(u8, i8)> for GlonassFreq`. -/
def GlonassFreq.tryFrom (v : Nat) (k : Int) : Option GlonassFreq :=
  match v with
  | 0 => some (.l1of k)
  | 2 => some (.l2of k)
  | _ => none

/-- `TryFrom<u8> for QzssFreq`. -/
def QzssFreq.tryFrom (v : Nat) : Option QzssFreq :=
  match v with
  | 0 => some .l1ca
  | 1 => some .l1s
  | 4 => some .l2cm
  | 5 => some .l2cl
  | 7 | 8 => some .l5
  | _ => none

/-- Outcome of `parse_sat_ids` in ubx.rs: either a satellite/channel pair, a
recoverable error (unknown `sigId`, logged and skipped by the caller), or the
`unreachable!()` panic inside `GnssSatellite::from_ubx` for an unknown
`gnssId`. -/
inductive SatIdsResult where
  | ok (sat : GnssSatellite) (freq : GnssFreq)
  | badSigId
  | panicUnreachable
deriving DecidableEq, Repr

/-- ubx.rs `parse_sat_ids`: maps `(gnssId, svId, sigId, freqId)` to a
`(satellite, channel)` pair.  SBAS uses the GPS signal table. -/
def parseSatIds (gnssId satId sigId : Nat) (glonassK : Int) : SatIdsResult :=
  match GnssSatellite.fromUbx gnssId satId with
  | none => .panicUnreachable
  | some sat =>
    match sat with
    | .gps _ | .sbas _ =>
      match GpsFreq.tryFrom sigId with
      | some f => .ok sat (.gps f)
      | none => .badSigId
    | .galileo _ =>
      match GalileoFreq.tryFrom sigId with
      | some f => .ok sat (.galileo f)
      | none => .badSigId
    | .beidou _ =>
      match BeidouFreq.tryFrom sigId with
      | some f => .ok sat (.beidou f)
      | none => .badSigId
    | .qzss _ =>
      match QzssFreq.tryFrom sigId with
      | some f => .ok sat (.qzss f)
      | none => .badSigId
    | .glonass _ =>
      match GlonassFreq.tryFrom sigId glonassK with
      | some f => .ok sat (.glonass f)
      | none => .badSigId

/-! ## Frame splitter (ubx.rs `split_ubx`, `find_rxm_raw`, `rxm_checksum`) -/

/-- ubx.rs `rxm_checksum`: the two-accumulator 8-bit Fletcher checksum,
each accumulator a wrapping u8 (`% 256`). -/
def rxmChecksum (buf : List Nat) : Nat × Nat :=
  buf.foldl (fun acc x => ((acc.1 + x) % 256, (acc.2 + (acc.1 + x) % 256) % 256)) (0, 0)

/-- Whether a 0xB5 0x62 sync pair starts at index `i` (both bytes must be in
bounds, matching the source's `buf.get(i + 1)` check). -/
def syncAt (buf : List Nat) (i : Nat) : Bool :=
  buf.get? i == some 0xB5 && buf.get? (i + 1) == some 0x62

/-- Scan downward from `n`, returning the greatest index `< n` where a sync
pair starts.  The source's scan loop runs over all of `0..buf.len()` and
overwrites its candidate on every hit, so the candidate it ends with is the
LAST sync pair, which this computes directly. -/
def lastSyncBefore (buf : List Nat) : Nat → Option Nat
  | 0 => none
  | n + 1 => if syncAt buf n then some n else lastSyncBefore buf n

/-- Position of the sync pair that ubx.rs `find_rxm_raw`'s scan loop settles
on: the last one in the buffer. -/
def lastSync (buf : List Nat) : Option Nat :=
  lastSyncBefore buf buf.length

/-- Errors of `find_rxm_raw`.  `panicIndex` marks the out-of-bounds index
panic the source hits when `ck_a` matches on a frame whose second checksum
byte lies one past the end of the buffer. -/
inductive FindErr where
  | noSync
  | shortHeader
  | incomplete
  | ckMismatch
  | panicIndex
deriving DecidableEq, Repr

/-- The `length` field read by `find_rxm_raw`: little-endian u16 at offsets
2 and 3 after the sync pair. -/
def frameLen (tail : List Nat) : Nat :=
  tail.getD 2 0 + 256 * tail.getD 3 0

/-- Validation half of ubx.rs `find_rxm_raw`, applied to the bytes after the
sync pair: bounds checks, then the Fletcher checksum over
`class || id || length || payload` against the two trailing bytes.  On
success returns `(end, class, id)` with `end` relative to `tail`. -/
def checkFrame (tail : List Nat) : Except FindErr (Nat × Nat × Nat) :=
  if tail.length < 4 then .error .shortHeader
  else if frameLen tail + 4 + 1 > tail.length then .error .incomplete
  else
    match tail[frameLen tail + 4]? with
    | none => .error .panicIndex
    | some b1 =>
      if (rxmChecksum (tail.take (frameLen tail + 4))).1 ≠ b1 then .error .ckMismatch
      else
        match tail[frameLen tail + 4 + 1]? with
        | none => .error .panicIndex
        | some b2 =>
          if (rxmChecksum (tail.take (frameLen tail + 4))).2 ≠ b2 then .error .ckMismatch
          else .ok (frameLen tail + 4, tail.getD 0 0, tail.getD 1 0)

/-- ubx.rs `find_rxm_raw`: locate the last sync pair, read the
`class | id | length` header after it, and validate the Fletcher checksum.
On success returns `(abs_start, abs_end, class, id)` where `abs_end` is one
past the second checksum byte. -/
def findRxmRaw (buf : List Nat) : Except FindErr (Nat × Nat × Nat × Nat) :=
  match lastSync buf with
  | none => .error .noSync
  | some s =>
    (checkFrame (buf.drop (s + 2))).map fun r => (s, s + 2 + r.1 + 2, r.2.1, r.2.2)

/-- ubx.rs `UbxMessage`: class, id and payload of an extracted frame. -/
structure UbxMessage where
  class' : Nat
  id : Nat
  payload : List Nat
deriving DecidableEq, Repr

/-- One `split_ubx` extraction step: drain `start..end` out of the buffer and
strip the 6 header bytes and 2 checksum bytes off the drained region. -/
def splitStep (buf : List Nat) (s e cls id : Nat) : UbxMessage × List Nat :=
  let extracted := (buf.drop s).take (e - s)
  let payload := ((extracted.drop 6).dropLast).dropLast
  (⟨cls, id, payload⟩, buf.take s ++ buf.drop e)

/-- Fuelled loop of ubx.rs `split_ubx`.  Each successful `find_rxm_raw`
excises at least 8 bytes (`findRxmRaw_ok_bounds`), so fuel `buf.length`
is never exhausted before `find_rxm_raw` fails; the fuel only bounds the
recursion. -/
def splitUbxGo : Nat → List Nat → List UbxMessage × List Nat
  | 0, buf => ([], buf)
  | fuel + 1, buf =>
    match findRxmRaw buf with
    | .error _ => ([], buf)
    | .ok (s, e, cls, id) =>
      let step := splitStep buf s e cls id
      let rest := splitUbxGo fuel step.2
      (step.1 :: rest.1, rest.2)

/-- ubx.rs `split_ubx`: repeatedly extract validated frames, returning the
messages in extraction order together with the residual bytes. -/
def splitUbx (buf : List Nat) : List UbxMessage × List Nat :=
  splitUbxGo buf.length buf

/-- The position returned by `find_rxm_raw` carries a sync pair, and it is
the last one: the source's scan loop overwrites its candidate on every hit. -/
theorem lastSyncBefore_spec (buf : List Nat) (n s : Nat)
    (h : lastSyncBefore buf n = some s) :
    syncAt buf s = true ∧ s < n ∧ ∀ j, j < n → syncAt buf j = true → j ≤ s := by
  induction n with
  | zero => simp [lastSyncBefore] at h
  | succ n ih =>
    by_cases hs : syncAt buf n
    · simp [lastSyncBefore, hs] at h
      subst h
      exact ⟨hs, Nat.lt_succ_self n, fun j hj _ => Nat.lt_succ_iff.mp hj⟩
    · simp [lastSyncBefore, hs] at h
      obtain ⟨h1, h2, h3⟩ := ih h
      refine ⟨h1, Nat.lt_succ_of_lt h2, fun j hj hj' => ?_⟩
      rcases Nat.lt_succ_iff_lt_or_eq.mp hj with hlt | rfl
      · exact h3 j hlt hj'
      · exact absurd hj' (by simp [hs])

/-- A successful `checkFrame` names an end position at least 4 and strictly
inside the buffer, with room for both checksum bytes. -/
theorem checkFrame_ok_bounds (tail : List Nat) (e cls id : Nat)
    (h : checkFrame tail = .ok (e, cls, id)) :
    4 ≤ e ∧ e + 1 < tail.length := by
  unfold checkFrame at h
  split at h
  · exact absurd h (by simp)
  · split at h
    · exact absurd h (by simp)
    · split at h
      · exact absurd h (by simp)
      · split at h
        · exact absurd h (by simp)
        · split at h
          · exact absurd h (by simp)
          next b2 hg2 =>
            split at h
            · exact absurd h (by simp)
            · simp only [Except.ok.injEq, Prod.mk.injEq] at h
              obtain ⟨rfl, -, -⟩ := h
              have hlt : frameLen tail + 4 + 1 < tail.length :=
                (List.getElem?_eq_some.mp hg2).1
              omega

/-- A successful `find_rxm_raw` returns a region of at least 8 bytes lying
inside the buffer (so the `drain` in `split_ubx` is in bounds and each loop
iteration strictly shrinks the buffer). -/
theorem findRxmRaw_ok_bounds (buf : List Nat) (s e cls id : Nat)
    (h : findRxmRaw buf = .ok (s, e, cls, id)) :
    s + 8 ≤ e ∧ e ≤ buf.length := by
  unfold findRxmRaw at h
  split at h
  · exact absurd h (by simp)
  next s' hsync =>
    rcases hcf : checkFrame (buf.drop (s' + 2)) with f | ⟨e', cls', id'⟩
    · rw [hcf] at h
      exact absurd h (by simp [Except.map])
    · simp only [hcf, Except.map_ok, Except.ok.injEq, Prod.mk.injEq] at h
      obtain ⟨rfl, rfl, -, -⟩ := h
      obtain ⟨h4, hlt⟩ := checkFrame_ok_bounds _ _ _ _ hcf
      have hdl : (buf.drop (s + 2)).length = buf.length - (s + 2) := by
        simp
      omega

/-! ## Little-endian words and IEEE-754 decoding -/

/-- Little-endian word from a list of bytes (each reduced `% 256`, matching
the u8 representation). -/
def leWord (l : List Nat) : Nat :=
  l.foldr (fun b acc => b % 256 + 256 * acc) 0

/-- Bytes `off..off+n` of a payload, as in a Rust slice `payload[off..off+n]`. -/
def bytesAt (payload : List Nat) (off n : Nat) : List Nat :=
  (payload.drop off).take n

/-- Sign, biased exponent and mantissa fields of an IEEE-754 binary64 bit
pattern. -/
def f64Fields (n : Nat) : Nat × Nat × Nat :=
  (n / 2 ^ 63 % 2, n / 2 ^ 52 % 2 ^ 11, n % 2 ^ 52)

/-- The bit pattern is a NaN. -/
def f64IsNan (n : Nat) : Bool :=
  (f64Fields n).2.1 == 2047 && (f64Fields n).2.2 != 0

/-- The bit pattern is an infinity. -/
def f64IsInf (n : Nat) : Bool :=
  (f64Fields n).2.1 == 2047 && (f64Fields n).2.2 == 0

/-- Exact rational value of a finite binary64 bit pattern (normal and
subnormal cases; the NaN/infinity patterns are classified separately and
never reach arithmetic in this development). -/
def f64Val (n : Nat) : ℚ :=
  let s := (f64Fields n).1
  let e := (f64Fields n).2.1
  let m := (f64Fields n).2.2
  let mag : ℚ :=
    if e = 0 then mkRat m (2 ^ 1074)
    else if e ≤ 1075 then mkRat (2 ^ 52 + m : Nat) (2 ^ (1075 - e))
    else mkRat ((2 ^ 52 + m) * 2 ^ (e - 1075) : Nat) 1
  if s = 1 then -mag else mag

/-- Exact rational value of a finite binary32 bit pattern. -/
def f32Val (n : Nat) : ℚ :=
  let s : Nat := n / 2 ^ 31 % 2
  let e : Nat := n / 2 ^ 23 % 2 ^ 8
  let m : Nat := n % 2 ^ 23
  let mag : ℚ :=
    if e = 0 then mkRat m (2 ^ 149)
    else if e ≤ 150 then mkRat (2 ^ 23 + m : Nat) (2 ^ (150 - e))
    else mkRat ((2 ^ 23 + m) * 2 ^ (e - 150) : Nat) 1
  if s = 1 then -mag else mag

/-- A byte reinterpreted as a two's-complement i8, as in `byte as i8`. -/
def toI8 (b : Nat) : Int :=
  if b % 256 < 128 then (b % 256 : Int) else (b % 256 : Int) - 256

/-! ## Time model (chrono / std::time, as used by `UbxRxmRawx::from_message`)

Durations and timestamps are exact rational numbers of seconds; a timestamp
counts seconds since the Unix epoch.  Each panic of the underlying library
functions is modelled explicitly:

* `Duration::from_secs_f64` panics on NaN, infinite, negative or `≥ 2^64`
  inputs;
* `Duration + Duration` panics above `Duration::MAX`
  (`u64::MAX` seconds + 999 999 999 ns);
* `TimeDelta::from_std` returns `Err` above `i64::MAX` milliseconds
  (this is the source's "Failed to convert duration to time delta" error);
* `TimeDelta + TimeDelta` and `DateTime + TimeDelta` panic on overflow;
  chrono's datetime range (year ±262143) is approximated by
  `chronoMaxSec` — all theorems below stay orders of magnitude away from
  this boundary. -/

/-- Rust panic sites reachable from `UbxRxmRawx::from_message`. -/
inductive UbxPanic where
  | fromSecsF64
  | durationAdd
  | timeDeltaAdd
  | dateTimeAdd
  | powOverflow
  | unreachableGnssId
deriving DecidableEq, Repr

/-- Failure modes of the decoder: a recoverable `Err(&'static str)` (coded by
`UbxErrKind`) or a Rust panic. -/
inductive UbxErrKind where
  | badClass
  | badId
  | badLength
  | badNumMeas
  | timeDeltaRange
deriving DecidableEq, Repr

/-- Combined failure type for the `Except` embedding of fallible Rust code. -/
inductive UbxFail where
  | err (k : UbxErrKind)
  | panic (p : UbxPanic)
deriving DecidableEq, Repr

/-- `Duration::MAX` in seconds: `u64::MAX` seconds plus 999 999 999 ns. -/
def durationMaxSec : ℚ :=
  mkRat (2 ^ 64 * 1000000000 - 1 : Nat) 1000000000

/-- `TimeDelta::MAX` in seconds: `i64::MAX` milliseconds. -/
def timeDeltaMaxSec : ℚ :=
  mkRat (2 ^ 63 - 1 : Nat) 1000

/-- chrono's maximum representable datetime (year 262143), in seconds since
the Unix epoch, approximated to within a year. -/
def chronoMaxSec : ℚ := 8270000000000

/-- `GPS_EPOCH` (1980-01-06T00:00:00Z) in seconds since the Unix epoch. -/
def gpsEpochSec : ℚ := 315964800

/-- `Duration::from_secs_f64` on a binary64 bit pattern: panics (no result)
unless the value is finite, non-negative and below `2^64` seconds. -/
def fromSecsF64 (n : Nat) : Except UbxFail ℚ :=
  if f64IsNan n || f64IsInf n then .error (.panic .fromSecsF64)
  else if f64Val n < 0 then .error (.panic .fromSecsF64)
  else if ((2 ^ 64 : Nat) : ℚ) ≤ f64Val n then .error (.panic .fromSecsF64)
  else .ok (f64Val n)

/-- `leapS as u64` for the signed leap-second byte: a negative i8 wraps to a
value near `2^64` (the source bug behind C6). -/
def leapAsU64 (b : Nat) : Nat :=
  if b % 256 < 128 then b % 256 else 2 ^ 64 - (256 - b % 256)

/-- Timestamp computation of `UbxRxmRawx::from_message` (ubx.rs lines
510-515): `GPS_EPOCH + weeks(week) + from_secs_f64(rcvTow) +
from_secs(leapS as u64)`, with every overflow check of the underlying
libraries made explicit. -/
def rawxTimestamp (towBits : Nat) (week : Nat) (leapByte : Nat) :
    Except UbxFail ℚ :=
  match fromSecsF64 towBits with
  | .error e => .error e
  | .ok tow =>
    let dur := tow + ((leapAsU64 leapByte : Nat) : ℚ)
    if durationMaxSec < dur then .error (.panic .durationAdd)
    else if timeDeltaMaxSec < dur then .error (.err .timeDeltaRange)
    else
      let total := ((week % 2 ^ 16 : Nat) : ℚ) * 604800 + dur
      if timeDeltaMaxSec < total then .error (.panic .timeDeltaAdd)
      else
        let ts := gpsEpochSec + total
        if chronoMaxSec < ts then .error (.panic .dateTimeAdd)
        else .ok ts

/-! ## RXM-RAWX records (ubx.rs `TrkStat`, `RecvStat`, `CarrierMeas`,
`UbxRxmRawx`) -/

/-- Tracking status bitfield (ubx.rs `TrkStat`). -/
structure TrkStat where
  prValid : Bool
  cpValid : Bool
  halfCycle : Bool
  subHalfCycle : Bool
deriving DecidableEq, Repr

/-- `TrkStat::from(u8)`: bits 0..3. -/
def TrkStat.ofByte (b : Nat) : TrkStat :=
  ⟨b.testBit 0, b.testBit 1, b.testBit 2, b.testBit 3⟩

/-- Receiver status bitfield (ubx.rs `RecvStat`). -/
structure RecvStat where
  leapSecondReady : Bool
  clkReset : Bool
deriving DecidableEq, Repr

/-- `RecvStat::from(u8)`: bits 0..1. -/
def RecvStat.ofByte (b : Nat) : RecvStat :=
  ⟨b.testBit 0, b.testBit 1⟩

/-- Per-satellite, per-channel measurement (ubx.rs `CarrierMeas`).  All f64
and f32 quantities are carried as exact rationals. -/
structure CarrierMeas where
  channel : GnssFreq
  pseudoRange : Option (ℚ × ℚ)
  carrierPhase : Option (ℚ × ℚ)
  doppler : ℚ × ℚ
  locktime : Nat
  carrierSnr : Nat
  trkStat : TrkStat
deriving DecidableEq, Repr

/-- Decoded RXM-RAWX frame (ubx.rs `UbxRxmRawx`).  The satellite→measurement
`HashMap` is modelled as an insertion-ordered association list; all claims
proved about it are insensitive to iteration order. -/
structure UbxRxmRawx where
  timestamp : ℚ
  receiverStatus : RecvStat
  version : Nat
  meas : List (GnssSatellite × List CarrierMeas)
deriving DecidableEq, Repr

/-- `2i32.pow(e)` for a stdev-index byte: overflows (and panics in a debug
build, the `cargo test` configuration) for exponents above 30. -/
def pow2i32 (e : Nat) : Except UbxFail Nat :=
  if 31 ≤ e then .error (.panic .powOverflow) else .ok (2 ^ e)

/-- `HashMap::entry` update: push onto an existing key's vector, or insert a
fresh singleton vector. -/
def insertMeas (st : List (GnssSatellite × List CarrierMeas))
    (sat : GnssSatellite) (mes : CarrierMeas) :
    List (GnssSatellite × List CarrierMeas) :=
  if st.any (fun p => p.1 = sat) then
    st.map fun p => if p.1 = sat then (p.1, p.2 ++ [mes]) else p
  else st ++ [(sat, [mes])]

/-- The re-sort the source performs on every vector of the map after each
insertion: a stable ascending sort by channel frequency, then `reverse`
(ubx.rs lines 586-594); `stableSortBy` computes the same list as Rust's
stable `sort_by`. -/
def sortMeasMap (st : List (GnssSatellite × List CarrierMeas)) :
    List (GnssSatellite × List CarrierMeas) :=
  st.map fun p =>
    (p.1, (stableSortBy (fun a b => a.channel.getFreq ≤ b.channel.getFreq) p.2).reverse)

/-- One iteration of the measurement loop of `UbxRxmRawx::from_message`
(ubx.rs lines 520-601) for measurement index `i`: decode the 32-byte record
at `16 + 32*i`, skip it on an unknown `sigId`, and otherwise insert it and
re-sort the map.  The `pr`/`cp` gates reproduce the source exactly: BOTH are
gated on `trk_stat.cp_valid()` (ubx.rs lines 529 and 541). -/
def measStep (payload : List Nat) (st : List (GnssSatellite × List CarrierMeas))
    (i : Nat) : Except UbxFail (List (GnssSatellite × List CarrierMeas)) := do
  let start := 16 + 32 * i
  let b := fun off => payload.getD (start + off) 0
  match parseSatIds (b 20) (b 21) (b 22) (toI8 (b 23)) with
  | .panicUnreachable => throw (.panic .unreachableGnssId)
  | .badSigId => pure st
  | .ok sat freq => do
    let trk := TrkStat.ofByte (b 30)
    let pr ← if trk.cpValid then do
        let p ← pow2i32 (b 27)
        pure (some (f64Val (leWord (bytesAt payload start 8)), (p : ℚ) / 100))
      else pure none
    let cp : Option (ℚ × ℚ) := if trk.cpValid then
        some (f64Val (leWord (bytesAt payload (start + 8) 8)), (b 28 : ℚ) * 4 / 1000)
      else none
    let dopMul ← pow2i32 (b 29)
    let doppler := (f32Val (leWord (bytesAt payload (start + 16) 4)), (dopMul : ℚ) / 500)
    let mes : CarrierMeas :=
      { channel := freq
        pseudoRange := pr
        carrierPhase := cp
        doppler := doppler
        locktime := leWord (bytesAt payload (start + 24) 2)
        carrierSnr := b 26
        trkStat := trk }
    pure (sortMeasMap (insertMeas st sat mes))

/-- `UbxRxmRawx::from_message` (ubx.rs lines 474-603): header checks,
timestamp computation and the measurement loop. -/
def UbxRxmRawx.fromMessage (m : UbxMessage) : Except UbxFail UbxRxmRawx := do
  if m.class' ≠ 0x2 then throw (.err .badClass)
  else if m.id ≠ 0x15 then throw (.err .badId)
  else if m.payload.length < 16 then throw (.err .badLength)
  else
    let numMes := (m.payload.length - 16) / 32
    if m.payload.getD 11 0 ≠ numMes % 256 then throw (.err .badNumMeas)
    else do
      let ts ← rawxTimestamp (leWord (bytesAt m.payload 0 8))
        (leWord (bytesAt m.payload 8 2)) (m.payload.getD 10 0)
      let meas ← (List.range numMes).foldlM (measStep m.payload) []
      pure
        { timestamp := ts
          receiverStatus := RecvStat.ofByte (m.payload.getD 12 0)
          version := m.payload.getD 13 0
          meas := meas }

/-! ## ReadUntil adapter (read_until.rs `ReadUntil::read_to_end`)

The upstream reader is modelled as a list of chunks: each call to
`self.reader.read(&mut tmp)` hands the adapter the next chunk whole (the
Rust `Read` contract allows any chunk sizes up to the 1024-byte `tmp`
buffer; an empty chunk list is end-of-stream).  The adapter's state between
calls is the unread part of its current block plus the remaining chunks. -/

/-- First position where `pat` occurs as a contiguous sublist of `l`, using
the same full-window semantics as `slice::windows(len).position(...)`:
`none` when `pat` is longer than `l`. -/
def findPattern (pat l : List Nat) : Option Nat :=
  (List.range (l.length + 1 - pat.length)).find? fun i =>
    (l.drop i).take pat.length == pat

/-- Loop body of `read_to_end`: search the current block; on a hit, append
the bytes before it, consume through the pattern and stop; otherwise append
the whole block and refill from the next chunk.  Returns
`(payload, return value, unread rest of current block, remaining chunks)`. -/
def readLoop (pat block acc : List Nat) (cnt : Nat) :
    List (List Nat) → List Nat × Nat × List Nat × List (List Nat)
  | [] =>
    match findPattern pat block with
    | some p => (acc ++ block.take p, cnt + p, block.drop (p + pat.length), [])
    | none => (acc ++ block, cnt + block.length, [], [])
  | c :: cs =>
    match findPattern pat block with
    | some p => (acc ++ block.take p, cnt + p, block.drop (p + pat.length), c :: cs)
    | none => readLoop pat c (acc ++ block) (cnt + block.length) cs

/-- read_until.rs `ReadUntil::read_to_end`, started from a fresh adapter
state (empty internal buffer).  `none` models the panic of
`slice::windows(0)` when the delimiter is empty. -/
def readToEnd (pat : List Nat) (chunks : List (List Nat)) :
    Option (List Nat × Nat × List Nat × List (List Nat)) :=
  if pat = [] then none else some (readLoop pat [] [] 0 chunks)

/-! ## Satellite serde round-trip (src/src/nmea.rs)

Strings are modelled as lists of ASCII codes. -/

/-- One uppercase hex digit, as produced by the `{:02X}` format. -/
def hexDigit (n : Nat) : Nat :=
  if n % 16 < 10 then 48 + n % 16 else 55 + n % 16

/-- The two-digit uppercase hex form of a byte (`format!("{:02X}", svid)`,
`svid` a u8). -/
def hex2 (n : Nat) : List Nat :=
  [hexDigit (n / 16), hexDigit n]

/-- `Serialize for GnssSatellite`: two-letter talker followed by the PRN in
two uppercase hex digits. -/
def GnssSatellite.serialize : GnssSatellite → List Nat
  | .gps i => [71, 80] ++ hex2 i
  | .sbas i => [71, 78] ++ hex2 i
  | .galileo i => [71, 65] ++ hex2 i
  | .beidou i => [71, 66] ++ hex2 i
  | .qzss i => [71, 81] ++ hex2 i
  | .glonass i => [71, 76] ++ hex2 i

/-- Value of one ASCII hex digit, as accepted by `u8::from_str_radix(_, 16)`
(which takes either case). -/
def hexDigitVal (c : Nat) : Option Nat :=
  if 48 ≤ c ∧ c ≤ 57 then some (c - 48)
  else if 65 ≤ c ∧ c ≤ 70 then some (c - 55)
  else if 97 ≤ c ∧ c ≤ 102 then some (c - 87)
  else none

/-- `u8::from_str_radix(s, 16).unwrap_or_default()`: parse the whole string
as hex, 0 on any error (empty string, bad digit, overflow past u8). -/
def parseHexU8 (cs : List Nat) : Nat :=
  match cs.mapM hexDigitVal with
  | none => 0
  | some ds =>
    if ds = [] then 0
    else
      let v := ds.foldl (fun acc d => acc * 16 + d) 0
      if v < 256 then v else 0

/-- `GnssSatellite::from_nmea_svid`.  The Glonass arm computes `svid - 64`
on a u8: wrapping two's-complement subtraction (`% 256`) as in a release
build (a debug build panics on underflow for svid < 64); the catch-all arm
is `unreachable!()`, modelled as `none`. -/
def GnssSatellite.fromNmeaSvid (cls : List Nat) (svid : Nat) :
    Option GnssSatellite :=
  if cls = [71, 80] then some (.gps svid)
  else if cls = [71, 66] then some (.beidou svid)
  else if cls = [71, 65] then some (.galileo svid)
  else if cls = [71, 76] then some (.glonass ((svid + 256 - 64 % 256) % 256))
  else if cls = [71, 78] then some (.sbas svid)
  else if cls = [71, 81] then some (.qzss svid)
  else none

/-- `Deserialize for GnssSatellite`: split the string after the two-letter
talker, hex-parse the rest, and decode via `from_nmea_svid`. -/
def GnssSatellite.deserialize (s : List Nat) : Option GnssSatellite :=
  GnssSatellite.fromNmeaSvid (s.take 2) (parseHexU8 (s.drop 2))

/-! ## Uncertain arithmetic and the TEC estimator (uncertain.rs, tec.rs)

The estimator operates on f64; it is modelled in exact real arithmetic.
Division by zero (NaN in Rust) is excluded by hypotheses where theorems
touch the affected quantities. -/

/-- uncertain.rs `Uncertain<T>` at `T = f64`: a value with an associated
uncertainty. -/
structure Uncertain where
  val : ℝ
  unc : ℝ
deriving Inhabited

/-- `Add for Uncertain`: values add, stdevs combine in quadrature. -/
noncomputable def Uncertain.add (a b : Uncertain) : Uncertain :=
  ⟨a.val + b.val, Real.sqrt (a.unc * a.unc + b.unc * b.unc)⟩

/-- `Neg for Uncertain`: `T::zero() - value`, stdev kept. -/
noncomputable def Uncertain.neg (a : Uncertain) : Uncertain :=
  ⟨0 - a.val, a.unc⟩

/-- `Sub for Uncertain`: `self + (-other)`. -/
noncomputable def Uncertain.sub (a b : Uncertain) : Uncertain :=
  a.add b.neg

/-- `Mul for Uncertain`, exactly as the source computes it: the product of
the values, paired with `sqrt((u1/v1)^2 + (u2/v2)^2)` — the RELATIVE error,
not scaled back by the product (uncertain.rs lines 74-85). -/
noncomputable def Uncertain.mul (a b : Uncertain) : Uncertain :=
  ⟨a.val * b.val,
   Real.sqrt (a.unc / a.val * (a.unc / a.val) + b.unc / b.val * (b.unc / b.val))⟩

/-- tec.rs `factor`: the dual-frequency geometric factor
`K(f1,f2) = (1e-16/40.308) * f1^2 f2^2 / (f1^2 - f2^2)`. -/
noncomputable def factor (f1 f2 : ℝ) : ℝ :=
  (1 / 10 ^ 16 / (40308 / 1000)) * (f1 * f1) * (f2 * f2) / (f1 * f1 - f2 * f2)

/-- `SPEED_OF_LIGHT` (tec.rs): 299 792 458 m/s. -/
def speedOfLight : ℝ := 299792458

/-- The phase-TEC expression of `TecInfo::assimilate` (tec.rs lines 58-65):
`((cp0 ± e0) * (c/f0 ± 0) - (cp1 ± e1) * (c/f1 ± 0)) * (K ± 0)` in
`Uncertain` arithmetic. -/
noncomputable def phaseTecCalc (cp0 e0 cp1 e1 f0 f1 : ℝ) : Uncertain :=
  ((Uncertain.mk cp0 e0).mul ⟨speedOfLight / f0, 0⟩ |>.sub
    ((Uncertain.mk cp1 e1).mul ⟨speedOfLight / f1, 0⟩)).mul ⟨factor f0 f1, 0⟩

/-- The range-TEC expression of `TecInfo::assimilate` (tec.rs lines 72-77):
`((pr1 ± e1) - (pr0 ± e0)) * (K ± 0)`. -/
noncomputable def rangeTecCalc (pr0 e0 pr1 e1 f0 f1 : ℝ) : Uncertain :=
  ((Uncertain.mk pr1 e1).sub (Uncertain.mk pr0 e0)).mul ⟨factor f0 f1, 0⟩

/-- ubx.rs `SatPathInfo`: sky geometry plus the per-channel measurements of
one satellite. -/
structure SatPathInfo where
  elevation : Int
  azimuth : Nat
  meas : List CarrierMeas

/-- The fields of ubx.rs `UbxGpsInfo` consumed by the TEC estimator:
timestamp, location, and the satellite→path map (association list standing
for the `HashMap`). -/
structure UbxGpsInfo where
  timestamp : ℚ
  loc : ℚ × ℚ × ℚ
  meas : List (GnssSatellite × SatPathInfo)

/-- tec.rs `TecData`: the per-satellite dual-channel TEC record. -/
structure TecData where
  source : GnssSatellite
  pointing : Nat × Int
  channels : GnssFreq × GnssFreq
  phaseTec : Option Uncertain
  rangeTec : Option Uncertain
  trkStat : TrkStat × TrkStat

/-- tec.rs `TecInfo`. -/
structure TecInfo where
  timestamp : ℚ
  location : ℚ × ℚ × ℚ
  tec : List TecData

/-- Candidate `TecData` for one satellite of the map, mirroring one loop
iteration of `TecInfo::assimilate` (tec.rs lines 47-98): skip satellites
with fewer than two channels, build phase-TEC iff the first two entries both
carry a carrier phase, range-TEC iff both carry a pseudo-range, and skip the
satellite when neither is produced. -/
noncomputable def mkTecData (sat : GnssSatellite) (ch : SatPathInfo) :
    Option TecData :=
  match ch.meas with
  | m0 :: m1 :: _ =>
    let f0 : ℝ := (m0.channel.getFreq : ℝ)
    let f1 : ℝ := (m1.channel.getFreq : ℝ)
    let phaseTec :=
      match m0.carrierPhase, m1.carrierPhase with
      | some (p0, e0), some (p1, e1) =>
        some (phaseTecCalc (p0 : ℝ) (e0 : ℝ) (p1 : ℝ) (e1 : ℝ) f0 f1)
      | _, _ => none
    let rangeTec :=
      match m0.pseudoRange, m1.pseudoRange with
      | some (r0, e0), some (r1, e1) =>
        some (rangeTecCalc (r0 : ℝ) (e0 : ℝ) (r1 : ℝ) (e1 : ℝ) f0 f1)
      | _, _ => none
    if phaseTec.isNone ∧ rangeTec.isNone then none
    else some
      { source := sat
        pointing := (ch.azimuth, ch.elevation)
        channels := (m0.channel, m1.channel)
        phaseTec := phaseTec
        rangeTec := rangeTec
        trkStat := (m0.trkStat, m1.trkStat) }
  | _ => none

/-- tec.rs `TecInfo::assimilate`: collect the per-satellite candidates,
return `None` when there are none, otherwise sort them by satellite identity
(the derived `Ord`; `stableSortBy` computes the same list as the source's
stable `sort_by`) and wrap them with the fix's timestamp and location. -/
noncomputable def TecInfo.assimilate (src : UbxGpsInfo) : Option TecInfo :=
  let tec := src.meas.filterMap fun p => mkTecData p.1 p.2
  if tec.isEmpty then none
  else some
    { timestamp := src.timestamp
      location := src.loc
      tec := stableSortBy (fun a b => a.source.leB b.source) tec }

/-! ## Concrete test vectors -/

/-- RXM-RAWX payload with one GPS L1CA measurement whose `trkStat` byte is
`0x01`: `pr_valid` set, `cp_valid` clear.  Header: `rcvTow = 0.0`,
`week = 0`, `leapS = 0`, `numMeas = 1`, `version = 1`. -/
def c1payload : List Nat :=
  [0, 0, 0, 0, 0, 0, 0, 0, 0, 0, 0, 1, 0, 1, 0, 0] ++
  [0, 0, 0, 0, 0, 0, 0, 0,
   0, 0, 0, 0, 0, 0, 0, 0,
   0, 0, 0, 0,
   0, 1, 0, 0,
   0, 0, 0, 0, 0, 0, 1, 0]

/-- The measurement the decoder produces from `c1payload`: no pseudo-range
tuple, although `prValid` is set. -/
def c1meas : CarrierMeas :=
  { channel := .gps .l1ca
    pseudoRange := none
    carrierPhase := none
    doppler := (0, 1 / 500)
    locktime := 0
    carrierSnr := 0
    trkStat := ⟨true, false, false, false⟩ }

/-- The full decode of `c1payload`. -/
def c1decoded : UbxRxmRawx :=
  { timestamp := 315964800
    receiverStatus := ⟨false, false⟩
    version := 1
    meas := [(.gps 1, [c1meas])] }

/-- Minimal RXM-RAWX payload with `leapS = 0xFF` (the i8 value `-1`),
`rcvTow = 0.0`, `week = 0`, `numMeas = 0`. -/
def c6payload : List Nat :=
  [0, 0, 0, 0, 0, 0, 0, 0, 0, 0, 0xFF, 0, 0, 1, 0, 0]

/-- Minimal RXM-RAWX payload whose `rcvTow` bytes are the little-endian
binary64 pattern of `-1.0`. -/
def c9payload : List Nat :=
  [0, 0, 0, 0, 0, 0, 0xF0, 0xBF, 0, 0, 0, 0, 0, 1, 0, 0]

/-- A complete valid RXM-RAWX frame with empty payload:
sync, class 0x02, id 0x15, length 0, Fletcher checksum (0x17, 0x47). -/
def frameA : List Nat := [0xB5, 0x62, 0x02, 0x15, 0x00, 0x00, 0x17, 0x47]

/-- A complete valid frame with the one-byte payload `[0xAA]` and checksum
(0xC2, 0x0B). -/
def frameB : List Nat := [0xB5, 0x62, 0x02, 0x15, 0x01, 0x00, 0xAA, 0xC2, 0x0B]

/-- `frameB` with its last checksum byte corrupted. -/
def frameBbad : List Nat := [0xB5, 0x62, 0x02, 0x15, 0x01, 0x00, 0xAA, 0xC2, 0x0C]

/-! ## Claim C1 -/

set_option maxRecDepth 100000 in
/-- C1, code bug: the claim (and spec §3/§9) require the pseudo-range tuple
to be present iff `pr_valid` is set, but ubx.rs line 529 gates the
pseudo-range on `trk_stat.cp_valid()`.  On a payload whose only measurement
has `trkStat = 0x01` (`pr_valid` set, `cp_valid` clear) the decoder accepts
the message yet emits NO pseudo-range tuple. -/
theorem c1_pr_gated_on_cp_valid :
    UbxRxmRawx.fromMessage ⟨0x2, 0x15, c1payload⟩ = .ok c1decoded ∧
    c1meas.trkStat.prValid = true ∧ c1meas.pseudoRange = none := by
  refine ⟨by with_unfolding_all rfl, by decide, by decide⟩

/-! ## Claim C6 -/

set_option maxRecDepth 100000 in
/-- C6, code bug: for a negative `leapS` the claim (and spec §4.D) give
`T = GPS_EPOCH + weeks(week) + seconds(rcvTow) + seconds(leapS)`; the source
instead computes `Duration::from_secs(leapS as u64)`, so `leapS = -1` becomes
about `2^64` seconds and decoding fails with the time-delta conversion error
instead of producing `GPS_EPOCH - 1s`.  The second conjunct shows the byte
really codes `-1`, the third shows the wrapped magnitude. -/
theorem c6_negative_leap_rejected :
    UbxRxmRawx.fromMessage ⟨0x2, 0x15, c6payload⟩ =
      .error (.err .timeDeltaRange) ∧
    toI8 (c6payload.getD 10 0) = -1 ∧
    leapAsU64 (c6payload.getD 10 0) = 2 ^ 64 - 1 := by
  refine ⟨by with_unfolding_all rfl, by decide, by decide⟩

/-! ## Claim C9 -/

set_option maxRecDepth 100000 in
/-- C9, counterexample: `from_message` is NOT total — on a payload whose
`rcvTow` field is the binary64 `-1.0`, `Duration::from_secs_f64` panics
(the decoder result is the modelled panic, not an `Ok`/`Err`). -/
theorem c9_negative_tow_panics :
    UbxRxmRawx.fromMessage ⟨0x2, 0x15, c9payload⟩ =
      .error (.panic .fromSecsF64) ∧
    f64Val (leWord (bytesAt c9payload 0 8)) = -1 := by
  refine ⟨by with_unfolding_all rfl, by with_unfolding_all rfl⟩

/-! ## Claim C2 -/

/-- C2, counterexample: the scanner does NOT locate the earliest sync pair
and output order does NOT match byte order.  On the buffer `frameA ++ frameB`
(frameA at byte 0 with empty payload, frameB at byte 8 with payload
`[0xAA]`), `split_ubx` extracts frameB FIRST — the scan loop keeps the LAST
sync pair — so the result is the reverse of byte order, not the byte order
the claim requires. -/
theorem c2_frames_in_reverse_byte_order :
    splitUbx (frameA ++ frameB) =
      ([⟨0x2, 0x15, [0xAA]⟩, ⟨0x2, 0x15, []⟩], []) ∧
    splitUbx (frameA ++ frameB) ≠
      ([⟨0x2, 0x15, []⟩, ⟨0x2, 0x15, [0xAA]⟩], []) ∧
    syncAt (frameA ++ frameB) 0 = true ∧ syncAt (frameA ++ frameB) 8 = true := by
  refine ⟨by decide, by decide, by decide, by decide⟩

/-- C2, amended: a successful `find_rxm_raw` starts at the LATEST sync pair
of the buffer (every sync position is at or before the returned start), so
with several frames in one buffer extraction proceeds from the last frame
backwards and the output order is the reverse of byte order. -/
theorem c2_find_starts_at_last_sync (buf : List Nat) (s e cls id : Nat)
    (h : findRxmRaw buf = .ok (s, e, cls, id)) :
    syncAt buf s = true ∧ ∀ j, syncAt buf j = true → j ≤ s := by
  have hsync : lastSync buf = some s := by
    unfold findRxmRaw at h
    split at h
    · exact absurd h (by simp)
    next s' hs' =>
      rcases hcf : checkFrame (buf.drop (s' + 2)) with f | r
      · rw [hcf] at h
        exact absurd h (by simp [Except.map])
      · rw [hcf] at h
        simp only [Except.map, Except.ok.injEq, Prod.mk.injEq] at h
        rw [hs', h.1]
  obtain ⟨h1, -, h3⟩ := lastSyncBefore_spec buf buf.length s hsync
  refine ⟨h1, fun j hj => ?_⟩
  by_cases hjl : j < buf.length
  · exact h3 j hjl hj
  · exfalso
    unfold syncAt at hj
    simp only [Bool.and_eq_true, beq_iff_eq] at hj
    have := (List.get?_eq_some.mp hj.1).1
    omega

/-- Witness for the amended C2 at the concrete buffer `frameA`. -/
theorem c2_find_starts_at_last_sync_witness :
    syncAt frameA 0 = true :=
  (c2_find_starts_at_last_sync frameA 0 8 0x2 0x15 (by decide)).1

/-! ## Claim C5 -/

/-- C5, counterexample: a framed region with a bad checksum does not merely
fail to decode — because the scanner works from the LAST sync pair, the
checksum mismatch at frameBbad aborts the whole loop and the perfectly valid
frameA earlier in the buffer is NOT returned, contradicting the claim that
invalid regions do not prevent valid frames elsewhere from being returned. -/
theorem c5_bad_frame_suppresses_valid_frame :
    splitUbx (frameA ++ frameBbad) = ([], frameA ++ frameBbad) ∧
    findRxmRaw frameA = .ok (0, 8, 0x2, 0x15) ∧
    findRxmRaw (frameA ++ frameBbad) = .error .ckMismatch := by
  refine ⟨by decide, by decide, by decide⟩

/-- C5, amended (soundness direction): whenever `split_ubx`'s scanner
accepts a frame, the two bytes following the payload do equal the 8-bit
Fletcher checksum over `class || id || length || payload`; a mismatch at the
scanner's (latest-sync) candidate yields no message and, because the scan
aborts, may also suppress valid frames earlier in the buffer. -/
theorem c5_accepted_frame_has_valid_checksum (buf : List Nat)
    (s e cls id : Nat) (h : findRxmRaw buf = .ok (s, e, cls, id)) :
    rxmChecksum ((buf.drop (s + 2)).take (e - (s + 4))) =
      ((buf.drop (s + 2)).getD (e - (s + 4)) 0,
       (buf.drop (s + 2)).getD (e - (s + 4) + 1) 0) := by
  unfold findRxmRaw at h
  split at h
  · exact absurd h (by simp)
  next s' hs' =>
    rcases hcf : checkFrame (buf.drop (s' + 2)) with f | ⟨e', cls', id'⟩
    · rw [hcf] at h
      exact absurd h (by simp [Except.map])
    · rw [hcf] at h
      simp only [Except.map, Except.ok.injEq, Prod.mk.injEq] at h
      obtain ⟨rfl, rfl, rfl, rfl⟩ := h
      have he : s' + 2 + e' + 2 - (s' + 4) = e' := by omega
      rw [he]
      unfold checkFrame at hcf
      split at hcf
      · exact absurd hcf (by simp)
      · split at hcf
        · exact absurd hcf (by simp)
        · split at hcf
          · exact absurd hcf (by simp)
          next b1 hg1 =>
            split at hcf
            · exact absurd hcf (by simp)
            next hck1 =>
              split at hcf
              · exact absurd hcf (by simp)
              next b2 hg2 =>
                split at hcf
                · exact absurd hcf (by simp)
                next hck2 =>
                  simp only [Except.ok.injEq, Prod.mk.injEq] at hcf
                  obtain ⟨he2, -, -⟩ := hcf
                  subst he2
                  simp only [not_not] at hck1 hck2
                  rw [List.getD_eq_getElem?_getD, List.getD_eq_getElem?_getD,
                    hg1, hg2]
                  simp [Prod.ext_iff, hck1, hck2]

/-- Witness for the amended C5 at the concrete valid frame `frameA`. -/
theorem c5_accepted_frame_has_valid_checksum_witness :
    rxmChecksum ((frameA.drop 2).take 4) =
      ((frameA.drop 2).getD 4 0, (frameA.drop 2).getD 5 0) := by
  have := c5_accepted_frame_has_valid_checksum frameA 0 8 0x2 0x15 (by decide)
  simpa using this

/-! ## Claim C8 -/

/-- `List.find?` over `List.range n` returns the least index satisfying the
predicate. -/
theorem range_find?_min (n p : Nat) (f : Nat → Bool)
    (h : (List.range n).find? f = some p) :
    f p = true ∧ p < n ∧ ∀ q, q < p → f q = false := by
  induction n with
  | zero => simp at h
  | succ n ih =>
    rw [List.range_succ, List.find?_append] at h
    cases hr : (List.range n).find? f with
    | some p' =>
      rw [hr] at h
      simp only [Option.or_some, Option.some.injEq] at h
      subst h
      obtain ⟨h1, h2, h3⟩ := ih hr
      exact ⟨h1, Nat.lt_succ_of_lt h2, h3⟩
    | none =>
      rw [hr] at h
      simp only [Option.none_or] at h
      have hn : f n = true ∧ p = n := by
        by_cases hfn : f n
        · simp [List.find?, hfn] at h
          exact ⟨hfn, h.symm⟩
        · simp [List.find?, hfn] at h
      obtain ⟨h1, rfl⟩ := hn
      refine ⟨h1, Nat.lt_succ_self _, fun q hq => ?_⟩
      have := List.find?_eq_none.mp hr
      by_cases hfq : f q
      · exact absurd hfq (this q (List.mem_range.mpr hq))
      · simpa using hfq

/-- Soundness and minimality of `findPattern`: the returned index carries a
full-window match and no earlier index does. -/
theorem findPattern_some {pat l : List Nat} {p : Nat}
    (h : findPattern pat l = some p) :
    (l.drop p).take pat.length = pat ∧ p + pat.length ≤ l.length ∧
    ∀ q, q < p → (l.drop q).take pat.length ≠ pat := by
  unfold findPattern at h
  obtain ⟨h1, h2, h3⟩ := range_find?_min _ _ _ h
  refine ⟨by simpa using h1, by omega, fun q hq => ?_⟩
  have := h3 q hq
  simpa using this

/-- The delimiter does not occur (as a full window) before the position
`findPattern` returns, so the payload cut at that position is
delimiter-free. -/
theorem findPattern_take_none (pat l : List Nat) (p : Nat) (hp : pat ≠ [])
    (h : findPattern pat l = some p) : findPattern pat (l.take p) = none := by
  cases hf : findPattern pat (l.take p) with
  | none => rfl
  | some q =>
    exfalso
    obtain ⟨heq, hb, -⟩ := findPattern_some hf
    obtain ⟨-, -, hmin⟩ := findPattern_some h
    have hlen : (l.take p).length ≤ p := by simp
    have hpl : 0 < pat.length := List.length_pos.mpr hp
    have hq : q < p := by omega
    have hm : pat.length ⊓ (p - q) = pat.length := Nat.min_eq_left (by omega)
    have key : ((l.take p).drop q).take pat.length = (l.drop q).take pat.length := by
      rw [List.drop_take, List.take_take, hm]
    rw [key] at heq
    exact hmin q hq heq

/-- C8, counterexample: the delimiter CAN appear in the returned payload when
it spans the adapter's block boundary.  With delimiter `[1,1]` and the
upstream delivering `[0,1]` then `[1,2]` (both within the 1 KiB block size),
the stream `[0,1,1,2]` contains the delimiter at position 1, so the claim
requires payload `[0]`; the adapter's windowed search never sees a window
across blocks and returns the whole stream — delimiter included — as the
payload. -/
theorem c8_delimiter_spanning_blocks_missed :
    readToEnd [1, 1] [[0, 1], [1, 2]] = some ([0, 1, 1, 2], 4, [], []) ∧
    findPattern [1, 1] ([0, 1] ++ [1, 2]) = some 1 ∧
    findPattern [1, 1] [0, 1, 1, 2] ≠ none := by
  refine ⟨by decide, by decide, by decide⟩

/-- C8, amended: the contract holds per block: when the upstream delivers the
stream as a single chunk (at most the 1 KiB block), `read_to_end` returns
exactly the bytes before the first delimiter occurrence, consumes the
delimiter, returns the payload length, and the payload is delimiter-free;
if no delimiter occurs, the remaining bytes are returned.  A delimiter
spanning two upstream chunks is not detected (see the counterexample). -/
theorem c8_single_block_contract (pat s : List Nat) (hp : pat ≠ [])
    (hs : s.length ≤ 1024) :
    (∀ p, findPattern pat s = some p →
      readToEnd pat [s] = some (s.take p, p, s.drop (p + pat.length), []) ∧
      findPattern pat (s.take p) = none) ∧
    (findPattern pat s = none →
      readToEnd pat [s] = some (s, s.length, [], [])) := by
  have hpe : findPattern pat [] = none := by
    unfold findPattern
    have hpl : 0 < pat.length := List.length_pos.mpr hp
    have : (List.nil : List Nat).length + 1 - pat.length = 0 := by
      simp
      omega
    rw [this]
    simp
  constructor
  · intro p hfp
    refine ⟨?_, findPattern_take_none pat s p hp hfp⟩
    unfold readToEnd
    rw [if_neg hp]
    simp only [readLoop, hpe, hfp]
    simp
  · intro hfp
    unfold readToEnd
    rw [if_neg hp]
    simp only [readLoop, hpe, hfp]
    simp

/-- Witness for the amended C8 on a concrete stream with an in-block
delimiter. -/
theorem c8_single_block_contract_witness :
    readToEnd [7] [[1, 7, 2]] =
      some (List.take 1 [1, 7, 2], 1, List.drop (1 + List.length [7]) [1, 7, 2], []) ∧
    findPattern [7] (List.take 1 [1, 7, 2]) = none :=
  (c8_single_block_contract [7] [1, 7, 2] (by decide) (by decide)).1 1 (by decide)

/-! ## Claim C10 -/

/-- C10, counterexample: the serde round-trip is NOT the identity for
Glonass.  Serialization writes the PRN as-is, but deserialization routes
through `from_nmea_svid`, which applies the NMEA −64 bias: `Glonass(1)`
serializes to the string `GL01` and deserializes to `Glonass(193)` (u8
wrapping subtraction; a debug build panics on the underflow instead). -/
theorem c10_glonass_roundtrip_fails :
    GnssSatellite.deserialize (GnssSatellite.serialize (.glonass 1)) =
      some (.glonass 193) ∧
    (GnssSatellite.glonass 193) ≠ .glonass 1 := by
  refine ⟨by decide, by decide⟩

set_option maxRecDepth 100000 in
/-- `parseHexU8` inverts `hex2` on every u8. -/
theorem parseHexU8_hex2 : ∀ i, i < 256 → parseHexU8 (hex2 i) = i := by
  decide

/-- The image of `GnssSatellite` under one serialize/deserialize round trip:
identity on every constellation except Glonass, whose PRN comes back
shifted by `-64` modulo 256. -/
def glonassBiased : GnssSatellite → GnssSatellite
  | .glonass i => .glonass ((i + 256 - 64) % 256)
  | s => s

/-- C10, amended: for every satellite with a u8 PRN, deserializing the
serialized form yields the original value for GPS, SBAS, Galileo, Beidou
and QZSS, while a Glonass PRN comes back decreased by 64 modulo 256 (the
deserializer applies the NMEA SVID bias to a serialization that never added
it); the round trip is the identity iff the satellite is not Glonass. -/
theorem c10_roundtrip_glonass_biased (sat : GnssSatellite)
    (h : sat.prn < 256) :
    GnssSatellite.deserialize (GnssSatellite.serialize sat) =
      some (glonassBiased sat) := by
  cases sat with
  | gps i =>
    have hi : i < 256 := h
    simp [GnssSatellite.serialize, GnssSatellite.deserialize, glonassBiased,
      GnssSatellite.fromNmeaSvid, parseHexU8_hex2 i hi]
  | sbas i =>
    have hi : i < 256 := h
    simp [GnssSatellite.serialize, GnssSatellite.deserialize, glonassBiased,
      GnssSatellite.fromNmeaSvid, parseHexU8_hex2 i hi]
  | galileo i =>
    have hi : i < 256 := h
    simp [GnssSatellite.serialize, GnssSatellite.deserialize, glonassBiased,
      GnssSatellite.fromNmeaSvid, parseHexU8_hex2 i hi]
  | beidou i =>
    have hi : i < 256 := h
    simp [GnssSatellite.serialize, GnssSatellite.deserialize, glonassBiased,
      GnssSatellite.fromNmeaSvid, parseHexU8_hex2 i hi]
  | qzss i =>
    have hi : i < 256 := h
    simp [GnssSatellite.serialize, GnssSatellite.deserialize, glonassBiased,
      GnssSatellite.fromNmeaSvid, parseHexU8_hex2 i hi]
  | glonass i =>
    have hi : i < 256 := h
    simp [GnssSatellite.serialize, GnssSatellite.deserialize, glonassBiased,
      GnssSatellite.fromNmeaSvid, parseHexU8_hex2 i hi]

/-- Witness for the amended C10 at `Gps(5)`. -/
theorem c10_roundtrip_glonass_biased_witness :
    GnssSatellite.deserialize (GnssSatellite.serialize (.gps 5)) =
      some (glonassBiased (.gps 5)) :=
  c10_roundtrip_glonass_biased (.gps 5) (by decide)

/-! ## Claim C7 -/

/-- Membership in `insertBy`: the inserted element plus the old ones. -/
theorem mem_insertBy {α : Type} (le : α → α → Bool) (a x : α) (l : List α) :
    x ∈ insertBy le a l ↔ x = a ∨ x ∈ l := by
  induction l with
  | nil => simp [insertBy]
  | cons b bs ih =>
    by_cases hb : le b a <;> simp [insertBy, hb, ih] <;> tauto

/-- `insertBy` preserves sortedness for a transitive, total comparator. -/
theorem insertBy_pairwise {α : Type} (le : α → α → Bool)
    (htrans : ∀ a b c, le a b = true → le b c = true → le a c = true)
    (htotal : ∀ a b, le a b = true ∨ le b a = true)
    (a : α) (l : List α) (hl : l.Pairwise fun x y => le x y = true) :
    (insertBy le a l).Pairwise fun x y => le x y = true := by
  induction l with
  | nil => simp [insertBy]
  | cons b bs ih =>
    rcases List.pairwise_cons.mp hl with ⟨hb, hbs⟩
    by_cases hba : le b a
    · rw [insertBy, if_pos hba]
      refine List.pairwise_cons.mpr ⟨?_, ih hbs⟩
      intro x hx
      rcases (mem_insertBy le a x bs).mp hx with rfl | hxbs
      · exact hba
      · exact hb x hxbs
    · rw [insertBy, if_neg hba]
      have hab : le a b = true := (htotal a b).resolve_right (by simpa using hba)
      refine List.pairwise_cons.mpr ⟨?_, hl⟩
      intro x hx
      rcases List.mem_cons.mp hx with rfl | hxbs
      · exact hab
      · exact htrans a b x hab (hb x hxbs)

/-- Length of `insertBy`. -/
theorem length_insertBy {α : Type} (le : α → α → Bool) (a : α) (l : List α) :
    (insertBy le a l).length = l.length + 1 := by
  induction l with
  | nil => simp [insertBy]
  | cons b bs ih =>
    by_cases hb : le b a <;> simp [insertBy, hb, ih]

/-- `stableSortBy` sorts (for a transitive, total comparator). -/
theorem stableSortBy_pairwise {α : Type} (le : α → α → Bool)
    (htrans : ∀ a b c, le a b = true → le b c = true → le a c = true)
    (htotal : ∀ a b, le a b = true ∨ le b a = true) (l : List α) :
    (stableSortBy le l).Pairwise fun x y => le x y = true := by
  have main : ∀ (l acc : List α), acc.Pairwise (fun x y => le x y = true) →
      (l.foldl (fun acc x => insertBy le x acc) acc).Pairwise
        fun x y => le x y = true := by
    intro l
    induction l with
    | nil => intro acc h; simpa using h
    | cons a as ih =>
      intro acc h
      exact ih _ (insertBy_pairwise le htrans htotal a acc h)
  exact main l [] (by simp)

/-- `stableSortBy` preserves length. -/
theorem length_stableSortBy {α : Type} (le : α → α → Bool) (l : List α) :
    (stableSortBy le l).length = l.length := by
  have main : ∀ (l acc : List α),
      (l.foldl (fun acc x => insertBy le x acc) acc).length =
        acc.length + l.length := by
    intro l
    induction l with
    | nil => intro acc; simp
    | cons a as ih =>
      intro acc
      rw [List.foldl_cons, ih, length_insertBy]
      simp only [List.length_cons]
      omega
  simpa using main l []

/-- A successful step of an `Except` fold preserves an invariant along the
whole fold. -/
theorem foldlM_except_invariant {σ ε α : Type} (f : σ → α → Except ε σ)
    (P : σ → Prop) (hf : ∀ s a s', f s a = .ok s' → P s → P s') :
    ∀ (l : List α) (s s' : σ), l.foldlM f s = .ok s' → P s → P s' := by
  intro l
  induction l with
  | nil =>
    intro s s' h hP
    have : s = s' := by
      have h' : (Except.ok s : Except ε σ) = .ok s' := h
      cases h'
      rfl
    exact this ▸ hP
  | cons a as ih =>
    intro s s' h hP
    rw [List.foldlM_cons] at h
    cases hf1 : f s a with
    | error e =>
      rw [hf1] at h
      exact absurd h (by
        have : (Except.error e >>= fun s1 => as.foldlM f s1 : Except ε σ) =
            Except.error e := rfl
        rw [this]
        simp)
    | ok s1 =>
      rw [hf1] at h
      have h2 : as.foldlM f s1 = .ok s' := by
        have : (Except.ok s1 >>= fun s1 => as.foldlM f s1 : Except ε σ) =
            as.foldlM f s1 := rfl
        rwa [this] at h
      exact ih s1 s' h2 (hf s a s1 hf1 hP)

/-- Splitting a successful `Except` bind. -/
theorem except_bind_ok {ε α β : Type} (x : Except ε α) (f : α → Except ε β)
    (b : β) (h : x >>= f = .ok b) : ∃ a, x = .ok a ∧ f a = .ok b := by
  cases x with
  | error e =>
    exact absurd h (by
      have : (Except.error e >>= f : Except ε β) = Except.error e := rfl
      rw [this]
      simp)
  | ok a =>
    refine ⟨a, rfl, ?_⟩
    have : (Except.ok a >>= f : Except ε β) = f a := rfl
    rwa [this] at h

/-- The measurement-list invariant of the decoder: every satellite's list is
non-empty and sorted by channel carrier frequency in descending order. -/
def measInvariant (st : List (GnssSatellite × List CarrierMeas)) : Prop :=
  ∀ p ∈ st, p.2 ≠ [] ∧
    p.2.Pairwise fun a b => b.channel.getFreq ≤ a.channel.getFreq

/-- `sortMeasMap` establishes the invariant on any map whose lists are
non-empty. -/
theorem sortMeasMap_invariant (st : List (GnssSatellite × List CarrierMeas))
    (h : ∀ p ∈ st, p.2 ≠ []) : measInvariant (sortMeasMap st) := by
  intro p hp
  rcases List.mem_map.mp hp with ⟨q, hq, rfl⟩
  constructor
  · intro hnil
    have := congrArg List.length hnil
    rw [List.length_reverse, length_stableSortBy] at this
    exact h q hq (List.length_eq_zero.mp (by simpa using this))
  · rw [List.pairwise_reverse]
    have := stableSortBy_pairwise
      (fun a b : CarrierMeas => decide (a.channel.getFreq ≤ b.channel.getFreq))
      (fun a b c hab hbc => by
        simp only [decide_eq_true_eq] at *
        exact le_trans hab hbc)
      (fun a b => by
        simp only [decide_eq_true_eq]
        exact le_total _ _)
      q.2
    exact this.imp fun hab => by simpa using hab

/-- `insertMeas` keeps every list non-empty. -/
theorem insertMeas_nonempty (st : List (GnssSatellite × List CarrierMeas))
    (sat : GnssSatellite) (mes : CarrierMeas)
    (h : ∀ p ∈ st, p.2 ≠ []) : ∀ p ∈ insertMeas st sat mes, p.2 ≠ [] := by
  intro p hp
  unfold insertMeas at hp
  by_cases hany : st.any fun p => p.1 = sat
  · rw [if_pos hany] at hp
    rcases List.mem_map.mp hp with ⟨q, hq, rfl⟩
    by_cases hqs : q.1 = sat
    · simp [hqs]
    · simpa [hqs] using h q hq
  · rw [if_neg hany] at hp
    rcases List.mem_append.mp hp with hmem | hmem
    · exact h p hmem
    · simp at hmem
      simp [hmem]

/-- One measurement-loop step preserves the invariant. -/
theorem measStep_invariant (payload : List Nat)
    (st st' : List (GnssSatellite × List CarrierMeas)) (i : Nat)
    (h : measStep payload st i = .ok st') (hP : measInvariant st) :
    measInvariant st' := by
  unfold measStep at h
  dsimp only at h
  split at h
  · exact absurd h (by simp [throw, throwThe, MonadExceptOf.throw])
  · have : st = st' := by
      have h' : (pure st : Except UbxFail _) = .ok st' := h
      cases h'
      rfl
    exact this ▸ hP
  · have finish : ∀ (sat : GnssSatellite) (mes : CarrierMeas),
        (pure (sortMeasMap (insertMeas st sat mes)) :
          Except UbxFail _) = .ok st' → measInvariant st' := by
      intro sat mes hm
      have hm' : (Except.ok (sortMeasMap (insertMeas st sat mes)) :
          Except UbxFail _) = .ok st' := hm
      cases hm'
      exact sortMeasMap_invariant _
        (insertMeas_nonempty st sat mes fun p hp => (hP p hp).1)
    split at h
    · obtain ⟨p, -, h2⟩ := except_bind_ok _ _ _ h
      obtain ⟨y, -, h3⟩ := except_bind_ok _ _ _ h2
      obtain ⟨dopMul, -, h4⟩ := except_bind_ok _ _ _ h3
      exact finish _ _ h4
    · obtain ⟨y, -, h2⟩ := except_bind_ok _ _ _ h
      obtain ⟨dopMul, -, h3⟩ := except_bind_ok _ _ _ h2
      exact finish _ _ h3

/-- C7, confirmed: in every `UbxRxmRawx` produced by `from_message`, no
satellite maps to an empty measurement list and every list is sorted by
channel carrier frequency in descending order. -/
theorem c7_meas_nonempty_sorted_desc (m : UbxMessage) (r : UbxRxmRawx)
    (h : UbxRxmRawx.fromMessage m = .ok r) :
    ∀ p ∈ r.meas, p.2 ≠ [] ∧
      p.2.Pairwise fun a b => b.channel.getFreq ≤ a.channel.getFreq := by
  unfold UbxRxmRawx.fromMessage at h
  dsimp only at h
  split at h
  · exact absurd h (by simp [throw, throwThe, MonadExceptOf.throw])
  · split at h
    · exact absurd h (by simp [throw, throwThe, MonadExceptOf.throw])
    · split at h
      · exact absurd h (by simp [throw, throwThe, MonadExceptOf.throw])
      · split at h
        · exact absurd h (by simp [throw, throwThe, MonadExceptOf.throw])
        · obtain ⟨ts, -, h2⟩ := except_bind_ok _ _ _ h
          obtain ⟨meas0, hfold, h3⟩ := except_bind_ok _ _ _ h2
          have hr : r.meas = meas0 := by
            have h3' : (Except.ok _ : Except UbxFail UbxRxmRawx) = .ok r := h3
            cases h3'
            rfl
          rw [hr]
          exact foldlM_except_invariant (measStep m.payload) measInvariant
            (fun s a s' hs hPs => measStep_invariant m.payload s s' a hs hPs)
            _ [] meas0 hfold (by intro p hp; simp at hp)

set_option maxRecDepth 100000 in
/-- Witness for C7 at the concrete `c1payload` decode. -/
theorem c7_meas_nonempty_sorted_desc_witness :
    ([c1meas] : List CarrierMeas) ≠ [] ∧
      ([c1meas] : List CarrierMeas).Pairwise
        fun a b => b.channel.getFreq ≤ a.channel.getFreq := by
  have := c7_meas_nonempty_sorted_desc ⟨0x2, 0x15, c1payload⟩ c1decoded
    (by with_unfolding_all rfl) (.gps 1, [c1meas]) (by simp [c1decoded])
  simpa using this

/-! ## Claim C3 -/

/-- Membership in `stableSortBy` is membership in the original list. -/
theorem mem_stableSortBy {α : Type} (le : α → α → Bool) (x : α) (l : List α) :
    x ∈ stableSortBy le l ↔ x ∈ l := by
  have main : ∀ (l acc : List α),
      (x ∈ l.foldl (fun acc x => insertBy le x acc) acc ↔ x ∈ acc ∨ x ∈ l) := by
    intro l
    induction l with
    | nil => intro acc; simp
    | cons a as ih =>
      intro acc
      rw [List.foldl_cons, ih, mem_insertBy]
      simp
      tauto
  simpa [stableSortBy] using main l []

/-- The satellite-to-leB order is transitive. -/
theorem satLeB_trans (a b c : GnssSatellite) (hab : a.leB b = true)
    (hbc : b.leB c = true) : a.leB c = true := by
  simp only [GnssSatellite.leB, Bool.or_eq_true, Bool.and_eq_true,
    decide_eq_true_eq, beq_iff_eq] at *
  omega

/-- The satellite-to-leB order is total. -/
theorem satLeB_total (a b : GnssSatellite) :
    a.leB b = true ∨ b.leB a = true := by
  simp only [GnssSatellite.leB, Bool.or_eq_true, Bool.and_eq_true,
    decide_eq_true_eq, beq_iff_eq]
  omega

/-- A map entry yields a TEC candidate: at least two channels, and the first
two both carry a carrier phase or both carry a pseudo-range. -/
def satContributes (p : GnssSatellite × SatPathInfo) : Prop :=
  ∃ m0 m1 rest, p.2.meas = m0 :: m1 :: rest ∧
    ((m0.carrierPhase.isSome = true ∧ m1.carrierPhase.isSome = true) ∨
     (m0.pseudoRange.isSome = true ∧ m1.pseudoRange.isSome = true))

/-- `mkTecData` yields a candidate exactly for contributing entries. -/
theorem mkTecData_ne_none_iff (p : GnssSatellite × SatPathInfo) :
    mkTecData p.1 p.2 ≠ none ↔ satContributes p := by
  unfold mkTecData satContributes
  rcases hm : p.2.meas with _ | ⟨m0, ms⟩
  · simp
  rcases ms with _ | ⟨m1, rest⟩
  · simp
  rcases hcp0 : m0.carrierPhase with _ | ⟨cp0, ce0⟩ <;>
    rcases hcp1 : m1.carrierPhase with _ | ⟨cp1, ce1⟩ <;>
      rcases hpr0 : m0.pseudoRange with _ | ⟨pr0, re0⟩ <;>
        rcases hpr1 : m1.pseudoRange with _ | ⟨pr1, re1⟩ <;>
          simp [hcp0, hcp1, hpr0, hpr1] <;>
            exact ⟨m0, m1, ⟨rfl, rfl⟩, by simp [hcp0, hcp1, hpr0, hpr1]⟩

/-- What a produced `TecData` says about its source entry: the satellite
key, at least two channels, and the channel pair taken from the FIRST two
entries of the measurement list. -/
theorem mkTecData_some_spec (s : GnssSatellite) (ch : SatPathInfo)
    (td : TecData) (h : mkTecData s ch = some td) :
    td.source = s ∧ ∃ m0 m1 rest, ch.meas = m0 :: m1 :: rest ∧
      td.channels = (m0.channel, m1.channel) := by
  obtain ⟨el, az, meas⟩ := ch
  rcases meas with _ | ⟨m0, ms⟩
  · exact absurd h (by simp [mkTecData])
  rcases ms with _ | ⟨m1, rest⟩
  · exact absurd h (by simp [mkTecData])
  unfold mkTecData at h
  dsimp only at h
  split at h
  · exact absurd h (by simp)
  · simp only [Option.some.injEq] at h
    subst h
    exact ⟨rfl, m0, m1, rest, rfl, rfl⟩

/-- C3, confirmed: `TecInfo::assimilate` returns `Some` iff at least one
satellite yields a phase-TEC or a range-TEC; a satellite with fewer than two
measured channels contributes nothing; every produced `TecData` takes its
channel pair from the first two entries of its satellite's measurement list;
and the output is sorted by satellite identity. -/
theorem c3_assimilate_spec (src : UbxGpsInfo) :
    ((TecInfo.assimilate src).isSome = true ↔
      ∃ p ∈ src.meas, satContributes p) ∧
    ∀ t, TecInfo.assimilate src = some t →
      (∀ td ∈ t.tec, ∃ p ∈ src.meas, td.source = p.1 ∧
        ∃ m0 m1 rest, p.2.meas = m0 :: m1 :: rest ∧
          td.channels = (m0.channel, m1.channel)) ∧
      t.tec.Pairwise fun a b => a.source.leB b.source = true := by
  constructor
  · unfold TecInfo.assimilate
    by_cases he : (src.meas.filterMap fun p => mkTecData p.1 p.2).isEmpty
    · rw [if_pos he]
      simp only [Option.isSome_none, Bool.false_eq_true, false_iff]
      rw [List.isEmpty_iff, List.filterMap_eq_nil_iff] at he
      rintro ⟨p, hp, hc⟩
      exact absurd (he p hp) (by
        rw [← Ne, mkTecData_ne_none_iff]
        exact hc)
    · rw [if_neg he]
      simp only [Option.isSome_some, true_iff]
      rw [List.isEmpty_iff] at he
      have : ∃ td, td ∈ src.meas.filterMap fun p => mkTecData p.1 p.2 := by
        rcases hl : src.meas.filterMap fun p => mkTecData p.1 p.2 with _ | ⟨td, tds⟩
        · exact absurd hl he
        · exact ⟨td, by rw [hl]; simp⟩
      rcases this with ⟨td, htd⟩
      rcases List.mem_filterMap.mp htd with ⟨p, hp, hmk⟩
      exact ⟨p, hp, (mkTecData_ne_none_iff p).mp (by rw [hmk]; simp)⟩
  · intro t ht
    unfold TecInfo.assimilate at ht
    dsimp only at ht
    split at ht
    · exact absurd ht (by simp)
    · simp only [Option.some.injEq] at ht
      subst ht
      constructor
      · intro td htd
        simp only at htd
        rw [mem_stableSortBy] at htd
        rcases List.mem_filterMap.mp htd with ⟨p, hp, hmk⟩
        obtain ⟨hsrc, m0, m1, rest, hmeas, hch⟩ :=
          mkTecData_some_spec p.1 p.2 td hmk
        exact ⟨p, hp, hsrc, m0, m1, rest, hmeas, hch⟩
      · exact stableSortBy_pairwise
          (fun a b : TecData => a.source.leB b.source)
          (fun a b c hab hbc => satLeB_trans a.source b.source c.source hab hbc)
          (fun a b => satLeB_total a.source b.source) _

/-- Concrete measurement with a carrier phase for the C3 witness. -/
def c3m0 : CarrierMeas :=
  { channel := .gps .l1ca
    pseudoRange := none
    carrierPhase := some (100000000, 1)
    doppler := (0, 0)
    locktime := 0
    carrierSnr := 40
    trkStat := ⟨false, true, false, false⟩ }

/-- Second concrete measurement (lower-frequency channel) for C3/C4. -/
def c3m1 : CarrierMeas :=
  { channel := .gps .l2cl
    pseudoRange := none
    carrierPhase := some (150000000, 0)
    doppler := (0, 0)
    locktime := 0
    carrierSnr := 40
    trkStat := ⟨false, true, false, false⟩ }

/-- A one-satellite fusion object whose satellite carries two phase
measurements. -/
def c3src : UbxGpsInfo :=
  { timestamp := 0
    loc := (0, 0, 0)
    meas := [(.gps 7, ⟨35, 120, [c3m0, c3m1]⟩)] }

/-- Witness for C3: the concrete input has a contributing satellite, so
`assimilate` returns `Some`. -/
theorem c3_assimilate_spec_witness : (TecInfo.assimilate c3src).isSome = true :=
  (c3_assimilate_spec c3src).1.mpr
    ⟨(.gps 7, ⟨35, 120, [c3m0, c3m1]⟩), by simp [c3src],
      c3m0, c3m1, [], rfl, Or.inl ⟨by simp [c3m0], by simp [c3m1]⟩⟩

/-! ## Claim C4 -/

/-- Closed form of the stdev slot computed by the source's phase-TEC
expression when the second phase has zero stdev: each `sqrt` collapses over
`ℝ`, leaving `|s0/cp0| / |cp0 c/f0 - cp1 c/f1|` — a RELATIVE error divided
by the phase difference, because `Mul for Uncertain` stores
`sqrt((u1/v1)^2 + (u2/v2)^2)` without scaling by the product. -/
theorem phaseTecCalc_unc_closed (cp0 s0 cp1 f0 f1 : ℝ) :
    (phaseTecCalc cp0 s0 cp1 0 f0 f1).unc =
      |s0 / cp0| /
        |cp0 * (speedOfLight / f0) - cp1 * (speedOfLight / f1)| := by
  simp only [phaseTecCalc, Uncertain.mul, Uncertain.sub, Uncertain.add,
    Uncertain.neg, zero_div, mul_zero, zero_mul, add_zero, zero_add,
    Real.sqrt_zero, zero_sub]
  have h1 : Real.sqrt (s0 / cp0 * (s0 / cp0)) = |s0 / cp0| := by
    rw [← pow_two]
    exact Real.sqrt_sq_eq_abs _
  rw [h1]
  have h2 : Real.sqrt (|s0 / cp0| * |s0 / cp0|) = |s0 / cp0| :=
    Real.sqrt_mul_self (abs_nonneg _)
  rw [h2]
  have h3 : ∀ x : ℝ, Real.sqrt (x * x) = |x| := fun x => by
    rw [← pow_two]
    exact Real.sqrt_sq_eq_abs _
  rw [h3, abs_div, abs_abs, ← sub_eq_add_neg]

/-- The measurements of the C4 counterexample: carrier phase `1e8`
cycles with stdev 1 on GPS L1CA... -/
def c4m0 : CarrierMeas :=
  { channel := .gps .l1ca
    pseudoRange := none
    carrierPhase := some (100000000, 1)
    doppler := (0, 0)
    locktime := 0
    carrierSnr := 30
    trkStat := ⟨false, true, false, false⟩ }

/-- ... and carrier phase `1.5e8` cycles with stdev 0 on GPS L2CL. -/
def c4m1 : CarrierMeas :=
  { channel := .gps .l2cl
    pseudoRange := none
    carrierPhase := some (150000000, 0)
    doppler := (0, 0)
    locktime := 0
    carrierSnr := 30
    trkStat := ⟨false, true, false, false⟩ }

/-- One-satellite fusion object for the C4 counterexample. -/
def c4src : UbxGpsInfo :=
  { timestamp := 0
    loc := (0, 0, 0)
    meas := [(.gps 3, ⟨45, 200, [c4m0, c4m1]⟩)] }

/-- The phase-TEC stdev `assimilate` computes on `c4src`. -/
noncomputable def c4stdev : Option ℝ :=
  ((TecInfo.assimilate c4src).bind fun t => t.tec.head?).bind
    fun td => td.phaseTec.map Uncertain.unc

/-- The stdev the code actually produces on `c4src`. -/
noncomputable def c4actual : ℝ :=
  ((1 : ℝ) / 100000000) /
    |100000000 * (speedOfLight / 1575420000) -
      150000000 * (speedOfLight / 1227600000)|

/-- The stdev the claim says the code produces on `c4src`:
`|c/f0 * K(f0, f1)| * s_cp0` with `s_cp0 = 1`. -/
noncomputable def c4claimed : ℝ :=
  |speedOfLight / 1575420000 * factor 1575420000 1227600000| * 1

/-- C4, counterexample: on `c4src` the phase-TEC stdev computed by
`assimilate` is about `5.7e-16`, while the claimed formula
`|c/f0 * K| * s_cp0` is about `1.8` — they differ by 15 orders of
magnitude (here: by more than a factor of two), far outside any floating
tolerance, because `Mul for Uncertain` never scales its relative error back
by the product. -/
theorem c4_stdev_mismatch :
    c4stdev = some c4actual ∧ 2 * c4actual < c4claimed ∧ c4actual ≠ c4claimed := by
  refine ⟨?_, ?_, ?_⟩
  · unfold c4stdev c4src c4m0 c4m1
    simp only [TecInfo.assimilate, mkTecData, List.filterMap, stableSortBy,
      insertBy, List.foldl, List.isEmpty, Option.bind, List.head?,
      Option.map]
    norm_num [c4actual, phaseTecCalc_unc_closed, GnssFreq.getFreq,
      GpsFreq.getFreq]
    rw [abs_of_pos (by norm_num : (0 : ℝ) < 1 / 100000000)]
  · unfold c4actual c4claimed factor speedOfLight
    have hd : (100000000 : ℝ) * (299792458 / 1575420000) -
        150000000 * (299792458 / 1227600000) < 0 := by norm_num
    rw [abs_of_neg hd]
    have hK : (0 : ℝ) <
        299792458 / 1575420000 *
          ((1 / 10 ^ 16 / (40308 / 1000)) * (1575420000 * 1575420000) *
            (1227600000 * 1227600000) / (1575420000 * 1575420000 -
              1227600000 * 1227600000)) := by norm_num
    rw [abs_of_pos hK]
    norm_num
  · unfold c4actual c4claimed factor speedOfLight
    have hd : (100000000 : ℝ) * (299792458 / 1575420000) -
        150000000 * (299792458 / 1227600000) < 0 := by norm_num
    rw [abs_of_neg hd]
    have hK : (0 : ℝ) <
        299792458 / 1575420000 *
          ((1 / 10 ^ 16 / (40308 / 1000)) * (1575420000 * 1575420000) *
            (1227600000 * 1227600000) / (1575420000 * 1575420000 -
              1227600000 * 1227600000)) := by norm_num
    rw [abs_of_pos hK]
    norm_num

/-- C4, amended: with zero stdev on every input except `cp0`, the phase-TEC
stdev the code computes equals `|s_cp0 / cp0| / |cp0 c/f0 - cp1 c/f1|`: the
relative error of `cp0` divided by the magnitude of the phase difference
(the hypotheses exclude the division-by-zero inputs on which the Rust code
would produce NaN). -/
theorem c4_phase_stdev_is_relative_error (cp0 s0 cp1 f0 f1 : ℝ)
    (hs0 : 0 ≤ s0) (hcp0 : cp0 ≠ 0) (hcp1 : cp1 ≠ 0)
    (hf0 : f0 ≠ 0) (hf1 : f1 ≠ 0) (hK : factor f0 f1 ≠ 0)
    (hd : cp0 * (speedOfLight / f0) - cp1 * (speedOfLight / f1) ≠ 0) :
    (phaseTecCalc cp0 s0 cp1 0 f0 f1).unc =
      |s0 / cp0| /
        |cp0 * (speedOfLight / f0) - cp1 * (speedOfLight / f1)| :=
  phaseTecCalc_unc_closed cp0 s0 cp1 f0 f1

/-- Witness for the amended C4 at concrete inputs. -/
theorem c4_phase_stdev_is_relative_error_witness :
    (phaseTecCalc 2 1 3 0 1575420000 1227600000).unc =
      |(1 : ℝ) / 2| /
        |2 * (speedOfLight / 1575420000) - 3 * (speedOfLight / 1227600000)| :=
  c4_phase_stdev_is_relative_error 2 1 3 1575420000 1227600000
    (by norm_num) (by norm_num) (by norm_num) (by norm_num) (by norm_num)
    (by norm_num [factor, speedOfLight]) (by norm_num [speedOfLight])

/-! ## Claim C9, amended -/

/-- Whether an embedded Rust computation ends in a modelled panic. -/
def resultPanics {α : Type} : Except UbxFail α → Bool
  | .error (.panic _) => true
  | _ => false

/-- A bind does not panic when neither side does. -/
theorem bind_no_panic {α β : Type} (x : Except UbxFail α)
    (f : α → Except UbxFail β) (hx : resultPanics x = false)
    (hf : ∀ a, x = .ok a → resultPanics (f a) = false) :
    resultPanics (x >>= f) = false := by
  cases x with
  | error e =>
    have hb : (Except.error e >>= f : Except UbxFail β) = Except.error e := rfl
    rw [hb]
    cases e with
    | err k => rfl
    | panic p => exact absurd hx (by simp [resultPanics])
  | ok a =>
    have : (Except.ok a >>= f : Except UbxFail β) = f a := rfl
    rw [this]
    exact hf a rfl

/-- A fold of non-panicking steps does not panic. -/
theorem foldlM_no_panic {σ α : Type} (f : σ → α → Except UbxFail σ)
    (l : List α) (hf : ∀ a ∈ l, ∀ s, resultPanics (f s a) = false) :
    ∀ s, resultPanics (l.foldlM f s) = false := by
  induction l with
  | nil => intro s; rfl
  | cons a as ih =>
    intro s
    rw [List.foldlM_cons]
    exact bind_no_panic _ _ (hf a (by simp) s)
      fun s1 _ => ih (fun b hb s2 => hf b (by simp [hb]) s2) s1

/-- `pow2i32` succeeds below the overflow threshold. -/
theorem pow2i32_ok (e : Nat) (h : e < 31) : pow2i32 e = .ok (2 ^ e) := by
  unfold pow2i32
  rw [if_neg (by omega)]

/-- `fromSecsF64` succeeds on a finite, non-negative, bounded double. -/
theorem fromSecsF64_ok (n : Nat) (h1 : f64IsNan n = false)
    (h2 : f64IsInf n = false) (h3 : 0 ≤ f64Val n)
    (h4 : f64Val n ≤ 1000000000) : fromSecsF64 n = .ok (f64Val n) := by
  unfold fromSecsF64
  rw [h1, h2]
  simp [not_lt.mpr h3]
  exact lt_of_le_of_lt h4 (by norm_num)

/-- Under the boundedness hypotheses the timestamp computation succeeds
outright (no panic, and no range error either). -/
theorem rawxTimestamp_ok (towBits week leapByte : Nat)
    (h1 : f64IsNan towBits = false) (h2 : f64IsInf towBits = false)
    (h3 : 0 ≤ f64Val towBits) (h4 : f64Val towBits ≤ 1000000000)
    (h5 : leapByte % 256 < 128) :
    ∃ ts, rawxTimestamp towBits week leapByte = .ok ts := by
  unfold rawxTimestamp
  rw [fromSecsF64_ok towBits h1 h2 h3 h4]
  dsimp only
  have hleap : ((leapAsU64 leapByte : Nat) : ℚ) ≤ 127 := by
    unfold leapAsU64
    rw [if_pos h5]
    exact_mod_cast Nat.le_of_lt_succ h5
  have hweek : ((week % 2 ^ 16 : Nat) : ℚ) ≤ 65535 := by
    have : week % 2 ^ 16 < 2 ^ 16 := Nat.mod_lt _ (by norm_num)
    exact_mod_cast Nat.le_of_lt_succ this
  have hdm : (1000000127 : ℚ) ≤ durationMaxSec := by
    with_unfolding_all decide
  have htm : (50000000000 : ℚ) ≤ timeDeltaMaxSec := by
    with_unfolding_all decide
  have hcm : (50000000000 : ℚ) ≤ chronoMaxSec := by
    with_unfolding_all decide
  have hge : gpsEpochSec = 315964800 := rfl
  have hwn : (0 : ℚ) ≤ ((week % 2 ^ 16 : Nat) : ℚ) := Nat.cast_nonneg _
  rw [if_neg (by push_neg; linarith), if_neg (by push_neg; linarith),
    if_neg (by push_neg; linarith), if_neg (by push_neg; rw [hge]; linarith)]
  exact ⟨_, rfl⟩

/-- An in-range `gnssId` never reaches the `unreachable!()` arm of
`from_ubx`. -/
theorem parseSatIds_no_panic (g s sig : Nat) (k : Int)
    (hg : g = 0 ∨ g = 1 ∨ g = 2 ∨ g = 3 ∨ g = 5 ∨ g = 6) :
    parseSatIds g s sig k ≠ .panicUnreachable := by
  rcases hg with rfl | rfl | rfl | rfl | rfl | rfl <;>
    unfold parseSatIds GnssSatellite.fromUbx <;>
    dsimp only <;>
    split <;> simp

/-- One measurement step never panics when its `gnssId` is in range and its
stdev-index bytes are below the `2^e` overflow threshold. -/
theorem measStep_no_panic (payload : List Nat) (i : Nat)
    (hg : payload.getD (16 + 32 * i + 20) 0 = 0 ∨
      payload.getD (16 + 32 * i + 20) 0 = 1 ∨
      payload.getD (16 + 32 * i + 20) 0 = 2 ∨
      payload.getD (16 + 32 * i + 20) 0 = 3 ∨
      payload.getD (16 + 32 * i + 20) 0 = 5 ∨
      payload.getD (16 + 32 * i + 20) 0 = 6)
    (h27 : payload.getD (16 + 32 * i + 27) 0 < 31)
    (h29 : payload.getD (16 + 32 * i + 29) 0 < 31) :
    ∀ st, resultPanics (measStep payload st i) = false := by
  intro st
  unfold measStep
  dsimp only
  split
  next hps => exact absurd hps (parseSatIds_no_panic _ _ _ _ hg)
  · rfl
  · split
    · refine bind_no_panic _ _ ?_ ?_
      · rw [pow2i32_ok _ h27]
        rfl
      · intro p hp
        refine bind_no_panic _ _ rfl ?_
        intro y hy
        refine bind_no_panic _ _ ?_ ?_
        · rw [pow2i32_ok _ h29]
          rfl
        · intro d hd
          rfl
    · refine bind_no_panic _ _ rfl ?_
      intro y hy
      refine bind_no_panic _ _ ?_ ?_
      · rw [pow2i32_ok _ h29]
        rfl
      · intro d hd
        rfl

/-- C9, amended: `from_message` is NOT total (see the counterexample), but
it never panics — every input yields `Ok` or `Err` — provided the `rcvTow`
field decodes to a finite, non-negative value of at most `10^9` seconds,
the `leapS` byte is non-negative as an i8, and every measurement record has
an in-range `gnssId` and `prStdev`/`doStdev` index bytes below 31. -/
theorem c9_no_panic_under_bounds (cls id : Nat) (payload : List Nat)
    (h1 : f64IsNan (leWord (bytesAt payload 0 8)) = false)
    (h2 : f64IsInf (leWord (bytesAt payload 0 8)) = false)
    (h3 : 0 ≤ f64Val (leWord (bytesAt payload 0 8)))
    (h4 : f64Val (leWord (bytesAt payload 0 8)) ≤ 1000000000)
    (h5 : payload.getD 10 0 % 256 < 128)
    (h6 : ∀ i, i < (payload.length - 16) / 32 →
      (payload.getD (16 + 32 * i + 20) 0 = 0 ∨
       payload.getD (16 + 32 * i + 20) 0 = 1 ∨
       payload.getD (16 + 32 * i + 20) 0 = 2 ∨
       payload.getD (16 + 32 * i + 20) 0 = 3 ∨
       payload.getD (16 + 32 * i + 20) 0 = 5 ∨
       payload.getD (16 + 32 * i + 20) 0 = 6))
    (h7 : ∀ i, i < (payload.length - 16) / 32 →
      payload.getD (16 + 32 * i + 27) 0 < 31)
    (h8 : ∀ i, i < (payload.length - 16) / 32 →
      payload.getD (16 + 32 * i + 29) 0 < 31) :
    resultPanics (UbxRxmRawx.fromMessage ⟨cls, id, payload⟩) = false := by
  unfold UbxRxmRawx.fromMessage
  dsimp only
  split
  · rfl
  · split
    · rfl
    · split
      · rfl
      · split
        · rfl
        · obtain ⟨ts, hts⟩ := rawxTimestamp_ok _ _ _ h1 h2 h3 h4 h5
          refine bind_no_panic _ _ (by rw [hts]; rfl) ?_
          intro ts' hts'
          refine bind_no_panic _ _ ?_ ?_
          · refine foldlM_no_panic _ _ ?_ []
            intro a ha s
            have hi : a < (payload.length - 16) / 32 := List.mem_range.mp ha
            exact measStep_no_panic payload a (h6 a hi) (h7 a hi) (h8 a hi) s
          · intro meas hmeas
            rfl

set_option maxRecDepth 100000 in
/-- Witness for the amended C9 at the concrete `c1payload`. -/
theorem c9_no_panic_under_bounds_witness :
    resultPanics (UbxRxmRawx.fromMessage ⟨0x2, 0x15, c1payload⟩) = false :=
  c9_no_panic_under_bounds 0x2 0x15 c1payload
    (by with_unfolding_all rfl) (by with_unfolding_all rfl)
    (by with_unfolding_all decide) (by with_unfolding_all decide)
    (by decide) (by decide) (by decide) (by decide)
